import Mathlib

/-!
Verification of `src/python/snyk_find_org_id_by_target.py`.

The script resolves, for a repository name, the Snyk organization that owns
the SCM integration for that repository.  We give a shallow embedding of its
core functions — the token rotator, the repository-URL normalizer, the
rate-limited GET fetcher, the paginator, the asset-search POST loop, the
organization resolver and the `get_best_org` tie-break — and prove the
specified properties about them.

HTTP is modelled as an explicit environment: a function from the index of the
request (for the retry loops) or from the URL (for the paginator) to the
response the server would give.  Python `None` / missing JSON keys are
modelled with `Option`; raised exceptions with explicit error constructors;
the non-terminating loops of the source are given fuel, with a distinguished
`diverge` outcome when it runs out.
-/

namespace SnykFindOrg

/-- Errors raised by the script (all are `ValueError` / `requests.HTTPError`
in the Python source, distinguished here by their messages / origins). -/
inductive SnykError where
  /-- Message "Rate-limited. Max attempts exceeded." / "Max retries exceeded." -/
  | rateLimitExceeded : SnykError
  /-- Raised by `r.raise_for_status()` on a non-2xx response, carrying the status. -/
  | httpError (status : Nat) : SnykError
  /-- Message of the form "N matches found. Please narrow your search." -/
  | ambiguousRepository (n : Nat) : SnykError
  /-- Message "orgs cannot be empty." -/
  | emptyInput : SnykError
  deriving Repr, DecidableEq

/-- Module constant `API_VERSION = "2024-10-15"`. -/
def API_VERSION : String := "2024-10-15"

/-- Module constant `DEFAULT_ORG = ""`. -/
def DEFAULT_ORG : String := ""

/-- Source `class Organization`: `id = org_data["id"]`,
`name = org_data["attributes"]["name"]`.  We model the raw API fragment
`org_data` by the pair of the two fields the constructor reads. -/
structure OrgData where
  id : String
  name : String
  deriving Repr, DecidableEq

/-- The constructed `Organization` object (fields `id` and `name`). -/
structure Organization where
  id : String
  name : String
  deriving Repr, DecidableEq

/-- Constructor `Organization(org_data)` of the Python class. -/
def Organization.ofData (o : OrgData) : Organization :=
  { id := o.id, name := o.name }

/-- Source `class SnykTokenManager`: a token pool, a retry budget and a rotation
cursor (`self.tokens`, `self.tries`, `self.idx = 0`). -/
structure SnykTokenManager where
  tokens : List String
  tries : Nat
  idx : Nat
  deriving Repr, DecidableEq

/-- Constructor `SnykTokenManager(tokens, tries=5)`: fresh manager with cursor 0. -/
def SnykTokenManager.init (tokens : List String) : SnykTokenManager :=
  { tokens := tokens, tries := 5, idx := 0 }

/-- Method `next_token`: `token = self.tokens[self.idx % len(self.tokens)];
self.idx += 1; return token`.  On an empty pool Python would raise
`ZeroDivisionError` from `% 0`, modelled as `none`. -/
def SnykTokenManager.next_token (m : SnykTokenManager) :
    Option (String × SnykTokenManager) :=
  if h : m.tokens.length = 0 then none
  else
    some (m.tokens.get ⟨m.idx % m.tokens.length, Nat.mod_lt _ (Nat.pos_of_ne_zero h)⟩,
          { m with idx := m.idx + 1 })

/-- The `i`-th call (0-based) in a run of successive `next_token` calls
starting from state `m`: its returned token, or `none` if some call fails. -/
def SnykTokenManager.nthCall (m : SnykTokenManager) : Nat → Option String
  | 0 => (m.next_token).map Prod.fst
  | i + 1 =>
    match m.next_token with
    | none => none
    | some (_, m') => m'.nthCall i

/-!  ## Python string primitives

Lean's core `String` functions are position-based loops the kernel does not
reduce, so the Python string operations the script uses (`startswith`,
`replace`, `in`, `lower`, single-character `split`) are embedded over
`String.data : List Char`, where everything evaluates by `decide`. -/

/-- Python `s.startswith(pat)`. -/
def pyStartsWith (s pat : String) : Bool :=
  pat.data.isPrefixOf s.data

/-- Python `str.replace`: replace every (non-overlapping, leftmost-first)
occurrence of `pat` in `s`.  The fuel is `s.length`, enough since each step
consumes at least one character; an empty `pat` is copied through unchanged
(the script only replaces the fixed pattern `"https://www."`). -/
def replaceAllFuel (pat rep : List Char) : Nat → List Char → List Char
  | _, [] => []
  | 0, s => s
  | fuel + 1, c :: s =>
    if pat ≠ [] ∧ pat.isPrefixOf (c :: s) then
      rep ++ replaceAllFuel pat rep fuel (s.drop (pat.length - 1))
    else
      c :: replaceAllFuel pat rep fuel s

/-- Python `s.replace(pat, rep)`. -/
def pyReplace (s pat rep : String) : String :=
  ⟨replaceAllFuel pat.data rep.data s.data.length s.data⟩

/-- Python substring containment `pat in s` (on char lists). -/
def containsSub (pat : List Char) : List Char → Bool
  | [] => pat.isEmpty
  | c :: s => pat.isPrefixOf (c :: s) || containsSub pat s

/-- Python `pat in s` for strings. -/
def pyIn (pat s : String) : Bool :=
  containsSub pat.data s.data

/-- Python `c in s` for a single character. -/
def pyInChar (c : Char) (s : String) : Bool :=
  s.data.contains c

/-- Python `s.lower()` (the names involved here are ASCII). -/
def pyLower (s : String) : String :=
  ⟨s.data.map Char.toLower⟩

/-- Split a char list at every occurrence of a single separator character
(Python `s.split(sep)` / Lean `splitOn` for the one-character separators
`?`, `&`, `=` used by the URL helpers). -/
def splitOnChar (sep : Char) : List Char → List (List Char)
  | [] => [[]]
  | c :: s =>
    if c = sep then [] :: splitOnChar sep s
    else
      match splitOnChar sep s with
      | [] => [[c]]
      | t :: ts => (c :: t) :: ts

/-- String wrapper for `splitOnChar`. -/
def pySplitChar (s : String) (sep : Char) : List String :=
  (splitOnChar sep s.data).map String.mk

/-- Source `_build_repo_url(repo_name, fallback_org="vasukotha2")`:
full URLs get `"https://www."` replaced by `"https://"` (Python
`str.replace`, i.e. every occurrence); otherwise the fallback owner is
prepended when there is no `/`, and the GitHub prefix is added. -/
def build_repo_url (repo_name : String) (fallback_org : String) : String :=
  if pyStartsWith repo_name "https://" then
    pyReplace repo_name "https://www." "https://"
  else
    let rn := if ¬ (pyInChar '/' repo_name) then fallback_org ++ "/" ++ repo_name
              else repo_name
    "https://github.com/" ++ rn

/-- The normalizer as called in the script (default `fallback_org`). -/
def normalize (repo_name : String) : String :=
  build_repo_url repo_name "vasukotha2"

/-- The predicate of the `get_best_org` generator expression:
`"unassigned" not in o.name.lower() and "default" not in o.name.lower()`. -/
def goodOrg (o : Organization) : Bool :=
  !(pyIn "unassigned" (pyLower o.name)) && !(pyIn "default" (pyLower o.name))

/-- Source `get_best_org(orgs)`: raises `ValueError` on `[]`; otherwise the first
org passing `goodOrg` (the `next(...)` over the generator), falling back to
`orgs[0]` on `StopIteration`. -/
def get_best_org (orgs : List Organization) : Except SnykError Organization :=
  match orgs with
  | [] => .error .emptyInput
  | o₀ :: _ =>
    match orgs.find? goodOrg with
    | some o => .ok o
    | none => .ok o₀

/-! ## HTTP model

The `requests` library is abstracted by explicit environments.  For the retry
loops the environment maps the index of the request (0-based, within one
call) to the response the server gives; for the paginator it maps the URL to
the parsed JSON body of the (successful) response. -/

/-- An HTTP response: status code and parsed JSON body. -/
structure HttpResponse (β : Type) where
  status : Nat
  body : β
  deriving Repr, DecidableEq

/-- Query parameters: a Python dict modelled as an insertion-ordered
association list (values rendered as strings; `limit=100` is the string
`"100"`). -/
abbrev Params := List (String × String)

/-- Statement `if key not in params: params[key] = value`: add a key only when
missing, preserving insertion order. -/
def dictSetDefault (params : Params) (key value : String) : Params :=
  if (params.lookup key).isSome then params else params ++ [(key, value)]

/-- The parameter block of `get` (source lines 160–167): when the URL has no
query string, inject defaults `version` and `limit` if the caller did not
supply them; otherwise drop the caller's params entirely (`params = None`).
`none` models Python `None` (no parameters sent at all). -/
def get_params (url : String) (params : Params) : Option Params :=
  if ¬ pyInChar '?' url then
    some (dictSetDefault (dictSetDefault params "version" API_VERSION) "limit" "100")
  else
    none

/-- Outcome of a rate-limited fetch.  `response` and `rateLimitExceeded`
carry the token-manager state at exit, so rotation side effects are
observable; `tokenError` is the `ZeroDivisionError` of an empty pool;
`diverge` means the fuel ran out. -/
inductive FetchResult (β : Type) where
  | response (r : HttpResponse β) (mgr : SnykTokenManager)
  | rateLimitExceeded (mgr : SnykTokenManager)
  | tokenError
  | diverge
  deriving Repr, DecidableEq

/-- The `while True` retry loop of `get` (source lines 171–183): rotate a
token, issue the request; on 429, raise once `attempt == max_attempts` and
otherwise sleep `backoff`, double it, bump `attempt` and retry; on any other
status return the response.  `k` counts requests made so far in this call. -/
def get_loop {β : Type} (respond : Nat → HttpResponse β) (k : Nat)
    (mgr : SnykTokenManager) (maxAttempts attempt backoff fuel : Nat) :
    FetchResult β :=
  match fuel with
  | 0 => .diverge
  | fuel + 1 =>
    match mgr.next_token with
    | none => .tokenError
    | some (_, mgr') =>
      let r := respond k
      if r.status = 429 then
        if attempt = maxAttempts then .rateLimitExceeded mgr'
        else get_loop respond (k + 1) mgr' maxAttempts (attempt + 1) (backoff * 2) fuel
      else .response r mgr'

/-- Source `get(client_manager, url, ..., max_attempts=5)`: computes the effective
query parameters from the URL, then runs the retry loop with `backoff = 2`
and `attempt = 1`.  The pair returns what was sent (the effective params,
identical on every attempt) alongside the loop's outcome. -/
def get {β : Type} (respond : Nat → HttpResponse β) (url : String)
    (params : Params) (mgr : SnykTokenManager) (maxAttempts fuel : Nat) :
    Option Params × FetchResult β :=
  (get_params url params, get_loop respond 0 mgr maxAttempts 1 2 fuel)

/-- The raw `relationships` fragments of a repository asset that
`fetch_organizations` reads: `relationships.organization.data` (empty list
when the key chain is missing, as `.get(..., {}).get("data", [])` yields)
and `relationships.projects.links.related`. -/
structure Asset where
  organization_data : List OrgData
  projects_related_link : String
  deriving Repr, DecidableEq

/-- Outcome of `fetch_repo_data`. -/
inductive PostResult where
  /-- Error `ValueError("Rate-limited. Max retries exceeded.")` raised in the loop. -/
  | rateLimitExceeded
  /-- Raised by `r.raise_for_status()` after the loop (non-2xx status). -/
  | httpError (status : Nat)
  /-- normal return of `data["data"]`. -/
  | assets (l : List Asset)
  | tokenError
  | diverge
  deriving Repr, DecidableEq

/-- The code after the `break` of `fetch_repo_data`'s loop:
`r.raise_for_status()` (raises on status ≥ 400) then `return data["data"]`. -/
def postLoopReturn (r : HttpResponse (List Asset)) : PostResult :=
  if 400 ≤ r.status then .httpError r.status else .assets r.body

/-- The `while True` loop of `fetch_repo_data` (source lines 138–150),
embedded exactly as written: on a 429, if `attempt >= max_attempts` raise
`ValueError`; the `logging.warning` / `time.sleep(backoff)` /
`backoff *= 2` / `attempt += 1` lines sit AFTER that `raise` and are dead
code; the `else` branch of the inner `if` is `break`, which falls through to
`r.raise_for_status()`.  On a non-429 status nothing exits the loop and the
request is simply re-issued. -/
def fetch_repo_data_loop (respond : Nat → HttpResponse (List Asset)) (k : Nat)
    (mgr : SnykTokenManager) (maxAttempts attempt backoff fuel : Nat) :
    PostResult :=
  match fuel with
  | 0 => .diverge
  | fuel + 1 =>
    match mgr.next_token with
    | none => .tokenError
    | some (_, mgr') =>
      let r := respond k
      if r.status = 429 then
        if maxAttempts ≤ attempt then .rateLimitExceeded
        else postLoopReturn r
      else fetch_repo_data_loop respond (k + 1) mgr' maxAttempts attempt backoff fuel

/-- Source `fetch_repo_data(repo, group_id, client_manager, max_attempts=5)`:
runs the loop with `backoff = 2`, `attempt = 1`.  The search query and URL
construction only shape what the abstract `respond` environment answers. -/
def fetch_repo_data (respond : Nat → HttpResponse (List Asset))
    (mgr : SnykTokenManager) (maxAttempts fuel : Nat) : PostResult :=
  fetch_repo_data_loop respond 0 mgr maxAttempts 1 2 fuel

/-! ## Paginator -/

/-- One parsed JSON page body: an optional `data` array (absent when the
response lacks the key — then logged and skipped) and the optional
`links.next` URL (`none` when `links` or `next` is missing). -/
structure Page (α : Type) where
  data : Option (List α)
  next : Option String
  deriving Repr, DecidableEq

/-- Statement `url = links.get("next"); if url and not url.startswith("https://"):
url = "https://api.snyk.io" + url`.  Python falsiness collapses `None` and
`""` — both end the `while url:` loop — so absence is modelled as `""`. -/
def resolveNext : Option String → String
  | none => ""
  | some u =>
    if u != "" && !(pyStartsWith u "https://") then "https://api.snyk.io" ++ u else u

/-- The `while url:` loop of `get_data` (source lines 189–199): fetch the
page, append `data.get("data", [])` to the accumulator, follow the resolved
`next` link.  The HTTP layer (`get`) is abstracted by `fetch`, which maps a
URL to the parsed body of the successful response. -/
def get_data_loop {α : Type} (fetch : String → Page α) (url : String)
    (acc : List α) (fuel : Nat) : Option (List α) :=
  match fuel with
  | 0 => none
  | fuel + 1 =>
    if url = "" then some acc
    else
      let page := fetch url
      get_data_loop fetch (resolveNext page.next) (acc ++ page.data.getD []) fuel

/-- Source `get_data(client_manager, url)`: run the loop from `results = []`. -/
def get_data {α : Type} (fetch : String → Page α) (url : String) (fuel : Nat) :
    Option (List α) :=
  get_data_loop fetch url [] fuel

/-! ## `add_url_params` and the organization resolver -/

/-- Split a URL at the first `?` into base and query string (the
`urlparse` round-trip of `add_url_params`, for the fragment-free URLs this
script builds). -/
def splitQuery (url : String) : String × String :=
  match pySplitChar url '?' with
  | [] => ("", "")
  | [u] => (u, "")
  | u :: rest => (u, String.intercalate "?" rest)

/-- Python `parse_qs` on the `k=v&k=v` query strings this script produces. -/
def parseQs (query : String) : Params :=
  if query = "" then []
  else
    (pySplitChar query '&').filterMap fun kv =>
      match pySplitChar kv '=' with
      | [k, v] => some (k, v)
      | _ => none

/-- Statement `query.update(params)`: overwrite an existing key in place, append a new
one (Python dict update order). -/
def dictUpdate (d : Params) (key value : String) : Params :=
  if (d.lookup key).isSome then
    d.map fun kv => if kv.1 = key then (key, value) else kv
  else d ++ [(key, value)]

/-- Python `urlencode` of an association list. -/
def encodeQs (q : Params) : String :=
  String.intercalate "&" (q.map fun kv => kv.1 ++ "=" ++ kv.2)

/-- Source `add_url_params(url, params)` for the single-parameter calls the script
makes: parse the query, update/overwrite the key, re-encode. -/
def add_url_params (url : String) (key value : String) : String :=
  let bq := splitQuery url
  let q := dictUpdate (parseQs bq.2) key value
  if q.isEmpty then bq.1 else bq.1 ++ "?" ++ encodeQs q

/-- The attributes of a related project that the SCM filter reads:
`p["attributes"]["organization_id"]` and `p["attributes"]["test_surface"]`. -/
structure Project where
  organization_id : String
  test_surface : String
  deriving Repr, DecidableEq

/-- Result of a resolution (`fetch_organizations`): `notFound` is Python's
`return None` on zero matches, `found l` a returned list (possibly `[]`),
`error` a raised exception, `diverge` fuel exhaustion. -/
inductive ResolveResult where
  | notFound
  | found (orgs : List Organization)
  | error (e : SnykError)
  | diverge
  deriving Repr, DecidableEq

/-- Source `fetch_organizations(repo, group_id, client_manager)` (source
lines 204–234), with the result of the asset search passed in as `assets`
and the project pages served by the `fetch` environment: zero matches →
`None`; more than one → `ValueError` (ambiguous); otherwise build the
candidate `Organization`s from `relationships.organization.data` (empty →
`[]`), fetch the related projects through the paginator on the resolved,
limit-augmented link, and keep exactly the candidates whose id is in
`{p.organization_id | p.test_surface ≠ "cli"}`. -/
def fetch_organizations (assets : List Asset) (fetch : String → Page Project)
    (fuel : Nat) : ResolveResult :=
  match assets with
  | [] => .notFound
  | [a] =>
    let repo_orgs := a.organization_data.map Organization.ofData
    if repo_orgs.isEmpty then .found []
    else
      let url := add_url_params ("https://api.snyk.io" ++ a.projects_related_link)
        "limit" "100"
      match get_data fetch url fuel with
      | none => .diverge
      | some related_projects =>
        .found (repo_orgs.filter fun o =>
          related_projects.any fun p =>
            p.test_surface != "cli" && p.organization_id == o.id)
  | _ => .error (.ambiguousRepository assets.length)

/-- Outcome of `main` after the search: `exitError` is `sys.exit(1)`,
`printed s` is `print(s)` followed by exit 0, `failure e` an uncaught
exception from the resolver, `diverge` fuel exhaustion. -/
inductive MainOutcome where
  | exitError
  | printed (s : String)
  | failure (e : SnykError)
  | diverge
  deriving Repr, DecidableEq

/-- The branching of `main` (source lines 254–272) after
`fetch_organizations` returns or raises: `if not found:` treats `None` and
`[]` alike (exit 1, or print `DEFAULT_ORG` with fallback); with more than
one org and no fallback, exit 1; otherwise run the tie-break and print the
selected id.  A raised exception propagates regardless of the flag. -/
def main_after_search (found : ResolveResult) (allow_fallback : Bool) :
    MainOutcome :=
  match found with
  | .diverge => .diverge
  | .error e => .failure e
  | .notFound =>
    if !allow_fallback then .exitError else .printed DEFAULT_ORG
  | .found l =>
    if l.isEmpty then
      if !allow_fallback then .exitError else .printed DEFAULT_ORG
    else if 1 < l.length && !allow_fallback then .exitError
    else
      match get_best_org l with
      | .ok o => .printed o.id
      | .error e => .failure e

/-! ## Chains of pages, and concrete example data -/

/-- Predicate `isChain fetch u chain`: records the walk the paginator performs from
`u`: each entry pairs the URL fetched with the page `fetch` serves there,
consecutive entries are linked by the resolved `next` link, and the walk
ends on a falsy (absent or empty) link. -/
def isChain {α : Type} [DecidableEq α] (fetch : String → Page α) :
    String → List (String × Page α) → Bool
  | u, [] => u == ""
  | u, (url, pg) :: rest =>
    u == url && u != "" && fetch url == pg && isChain fetch (resolveNext pg.next) rest

/-- Example asset with candidate organizations A and B. -/
def assetAB : Asset :=
  ⟨[⟨"A", "Org A"⟩, ⟨"B", "Org B"⟩], "/rest/p"⟩

/-- Example related projects: A owns an SCM-surface (`"github"`) project,
B only a `"cli"`-surface one. -/
def projectsAB : List Project :=
  [⟨"A", "github"⟩, ⟨"B", "cli"⟩]

/-- Environment serving the single projects page of `assetAB` at the URL
the resolver builds for it. -/
def fetchAB : String → Page Project := fun u =>
  if u = "https://api.snyk.io/rest/p?limit=100" then ⟨some projectsAB, none⟩
  else ⟨none, none⟩

/-- Environment with no data anywhere (used where the paginator is never
reached). -/
def emptyFetch : String → Page Project := fun _ =>
  ⟨none, none⟩

/-- Three chained pages of ten items each (items 0–29); the first two carry
a `next` link (one of them relative, so the API host gets prepended), the
last has none. -/
def pageFetch30 : String → Page Nat := fun u =>
  if u = "https://api.snyk.io/p1" then ⟨some (List.range 10), some "/p2"⟩
  else if u = "https://api.snyk.io/p2" then
    ⟨some (List.range' 10 10), some "https://api.snyk.io/p3"⟩
  else ⟨some (List.range' 20 10), none⟩

/-- The chain `pageFetch30` induces from its first page. -/
def chain30 : List (String × Page Nat) :=
  [("https://api.snyk.io/p1", ⟨some (List.range 10), some "/p2"⟩),
   ("https://api.snyk.io/p2", ⟨some (List.range' 10 10), some "https://api.snyk.io/p3"⟩),
   ("https://api.snyk.io/p3", ⟨some (List.range' 20 10), none⟩)]

/-- Like `pageFetch30` but the middle page lacks the `data` key. -/
def pageFetchGap : String → Page Nat := fun u =>
  if u = "https://api.snyk.io/q1" then ⟨some (List.range 10), some "/q2"⟩
  else if u = "https://api.snyk.io/q2" then ⟨none, some "/q3"⟩
  else ⟨some (List.range' 10 10), none⟩

/-- The chain `pageFetchGap` induces from its first page. -/
def chainGap : List (String × Page Nat) :=
  [("https://api.snyk.io/q1", ⟨some (List.range 10), some "/q2"⟩),
   ("https://api.snyk.io/q2", ⟨none, some "/q3"⟩),
   ("https://api.snyk.io/q3", ⟨some (List.range' 10 10), none⟩)]

/-- Mock endpoint that answers 429 exactly twice, then 200. -/
def respond2then200 : Nat → HttpResponse Nat := fun k =>
  if k < 2 then ⟨429, 0⟩ else ⟨200, 0⟩

/-- Mock endpoint that always answers 429. -/
def respondAll429 : Nat → HttpResponse Nat := fun _ =>
  ⟨429, 0⟩

/-! ## Helper lemmas -/

/-- Lemma: `find?` returns the element at the first position where the predicate
holds. -/
theorem find?_of_first {α : Type} (p : α → Bool) (l : List α) (i : Nat)
    (hi : i < l.length) (hp : p (l.get ⟨i, hi⟩) = true)
    (hmin : ∀ j (hj : j < l.length), j < i → p (l.get ⟨j, hj⟩) = false) :
    l.find? p = some (l.get ⟨i, hi⟩) := by
  induction l generalizing i with
  | nil => exact absurd hi (Nat.not_lt_zero i)
  | cons a t ih =>
    cases i with
    | zero => exact List.find?_cons_of_pos t hp
    | succ i =>
      have ha : p a = false :=
        hmin 0 (Nat.succ_pos _) (Nat.succ_pos i)
      rw [List.find?_cons_of_neg _ (by simp [ha])]
      exact ih i (Nat.lt_of_succ_lt_succ hi) hp
        (fun j hj hlt => hmin (j + 1) (Nat.succ_lt_succ hj) (Nat.succ_lt_succ hlt))

/-- Looking a key up in an appended association list whose left part lacks
the key reduces to the right part. -/
theorem lookup_append_of_none {α β : Type} [BEq α] {l₁ : List (α × β)} {k : α}
    (h : List.lookup k l₁ = none) (l₂ : List (α × β)) :
    List.lookup k (l₁ ++ l₂) = List.lookup k l₂ := by
  induction l₁ with
  | nil => simp
  | cons p t ih =>
    rw [List.cons_append, List.lookup_cons]
    rw [List.lookup_cons] at h
    cases hk : (k == p.1) with
    | true => simp [hk] at h
    | false => simp only [hk]; exact ih (by simpa [hk] using h)

/-- Lemma: `nthCall` reads the pool round-robin: the `i`-th successive call returns
the token at index `(idx + i) mod N`. -/
theorem nthCall_eq (m : SnykTokenManager) (i : Nat) (h : m.tokens.length ≠ 0) :
    m.nthCall i = m.tokens[(m.idx + i) % m.tokens.length]? := by
  induction i generalizing m with
  | zero =>
    simp [SnykTokenManager.nthCall, SnykTokenManager.next_token, h,
      List.getElem?_eq_getElem (Nat.mod_lt _ (Nat.pos_of_ne_zero h))]
  | succ i ih =>
    have := ih { m with idx := m.idx + 1 } (by simpa using h)
    simp only [SnykTokenManager.nthCall, SnykTokenManager.next_token, h, dif_neg,
      not_false_iff] at this ⊢
    rw [this]
    have harg : m.idx + 1 + i = m.idx + (i + 1) := by omega
    rw [harg]

/-! ## Claim theorems -/

/-- C7: the repository URL normalizer maps `"owner/repo"` to
`"https://github.com/owner/repo"`, prepends the fallback owner
(`"vasukotha2"`) to a bare `"repo"`, strips the `www.` of
`"https://www.github.com/o/r"`, and is the identity on the canonical
`"https://github.com/o/r"`. -/
theorem normalize_spec :
    normalize "owner/repo" = "https://github.com/owner/repo" ∧
    normalize "repo" = "https://github.com/vasukotha2/repo" ∧
    normalize "https://www.github.com/o/r" = "https://github.com/o/r" ∧
    normalize "https://github.com/o/r" = "https://github.com/o/r" := by
  refine ⟨by decide, by decide, by decide, by decide⟩

/-- C3: `get_best_org` fails with the empty-input `ValueError` on `[]`;
on a non-empty list it returns the first organization whose lower-cased name
contains neither `"unassigned"` nor `"default"` (the element at the first
position satisfying `goodOrg`), and falls back to the original first element
when every organization fails that test. -/
theorem get_best_org_spec (orgs : List Organization) :
    (orgs = [] → get_best_org orgs = .error .emptyInput) ∧
    (∀ h : orgs ≠ [], (∀ o ∈ orgs, goodOrg o = false) →
      get_best_org orgs = .ok (orgs.head h)) ∧
    (∀ (i : Nat) (hi : i < orgs.length), goodOrg (orgs.get ⟨i, hi⟩) = true →
      (∀ j (hj : j < orgs.length), j < i → goodOrg (orgs.get ⟨j, hj⟩) = false) →
      get_best_org orgs = .ok (orgs.get ⟨i, hi⟩)) := by
  refine ⟨fun h => by subst h; rfl, fun h hall => ?_, fun i hi hp hmin => ?_⟩
  · cases orgs with
    | nil => exact absurd rfl h
    | cons o₀ rest =>
      have : (o₀ :: rest).find? goodOrg = none :=
        List.find?_eq_none.mpr (fun o ho => by simp [hall o ho])
      simp [get_best_org, this]
  · have hfind := find?_of_first goodOrg orgs i hi hp hmin
    cases orgs with
    | nil => exact absurd hi (by simp)
    | cons o₀ rest => simp [get_best_org, hfind]

/-- C3 witness: the spec's three examples —
`get_best_org [default org, Acme] = Acme` (first good element, at index 1),
`get_best_org [unassigned] = unassigned` (fallback to the first element),
and `get_best_org [] = EmptyInput`. -/
theorem get_best_org_spec_witness :
    get_best_org [⟨"1", "default org"⟩, ⟨"2", "Acme"⟩] = .ok ⟨"2", "Acme"⟩ ∧
    get_best_org [⟨"3", "unassigned"⟩] = .ok ⟨"3", "unassigned"⟩ ∧
    get_best_org [] = .error .emptyInput := by
  refine ⟨?_, ?_, ?_⟩
  · exact (get_best_org_spec [⟨"1", "default org"⟩, ⟨"2", "Acme"⟩]).2.2 1
      (by decide) (by decide) (by decide)
  · exact (get_best_org_spec [⟨"3", "unassigned"⟩]).2.1 (by decide)
      (by decide)
  · exact (get_best_org_spec []).1 rfl

/-- C8: on a non-empty pool of `N` tokens, `next_token` never fails, and a
run of successive calls is round-robin — for every `i`, the `i`-th and
`(i + N)`-th calls return the same token, namely the one at cursor position
`(idx + i) mod N`. -/
theorem next_token_round_robin (m : SnykTokenManager)
    (h : m.tokens.length ≠ 0) (i : Nat) :
    (m.nthCall i).isSome ∧ m.nthCall (i + m.tokens.length) = m.nthCall i := by
  constructor
  · rw [nthCall_eq m i h,
      List.getElem?_eq_getElem (Nat.mod_lt _ (Nat.pos_of_ne_zero h))]
    rfl
  · rw [nthCall_eq m i h, nthCall_eq m (i + m.tokens.length) h,
      ← Nat.add_assoc, Nat.add_mod_right]

/-- C8 witness: on the pool `["a", "b", "c"]`, call 1 and call 4 both return
`"b"`, and call 1 succeeds. -/
theorem next_token_round_robin_witness :
    ((SnykTokenManager.init ["a", "b", "c"]).nthCall 1).isSome ∧
    (SnykTokenManager.init ["a", "b", "c"]).nthCall (1 + 3) =
      (SnykTokenManager.init ["a", "b", "c"]).nthCall 1 := by
  exact next_token_round_robin (SnykTokenManager.init ["a", "b", "c"]) (by decide) 1

/-- Walking a chain: the paginator accumulates each page's `data` (empty
for a page that lacks the key) onto the accumulator, in order, and
terminates when the chain ends. -/
theorem get_data_loop_chain {α : Type} [DecidableEq α] (fetch : String → Page α) :
    ∀ (chain : List (String × Page α)) (url : String) (acc : List α) (fuel : Nat),
      isChain fetch url chain = true → chain.length < fuel →
      get_data_loop fetch url acc fuel =
        some (acc ++ (chain.map fun e => e.2.data.getD []).flatten) := by
  intro chain
  induction chain with
  | nil =>
    intro url acc fuel hch hf
    obtain ⟨f, rfl⟩ : ∃ f, fuel = f + 1 := ⟨fuel - 1, by omega⟩
    have hu : url = "" := by simpa [isChain] using hch
    simp [get_data_loop, hu]
  | cons e rest ih =>
    intro url acc fuel hch hf
    obtain ⟨eurl, epg⟩ := e
    obtain ⟨f, rfl⟩ : ∃ f, fuel = f + 1 := ⟨fuel - 1, by omega⟩
    simp only [isChain, Bool.and_eq_true, beq_iff_eq, bne_iff_ne] at hch
    obtain ⟨⟨⟨h1, h2⟩, h3⟩, h4⟩ := hch
    subst h1
    rw [get_data_loop, if_neg h2, h3,
      ih (resolveNext epg.next) (acc ++ epg.data.getD []) f h4 (by simpa using hf)]
    simp

/-- C6: for every chain of pages — each body holding an optional `data`
array and an optional `links.next` URL — the paginator returns the
concatenation of the pages' `data` entries in response order, a page
without a `data` key contributing nothing, and it terminates (with finite
fuel) once a page has no next link. -/
theorem get_data_chain_concat {α : Type} [DecidableEq α]
    (fetch : String → Page α) (url : String)
    (chain : List (String × Page α)) (fuel : Nat)
    (hch : isChain fetch url chain = true) (hf : chain.length < fuel) :
    get_data fetch url fuel = some ((chain.map fun e => e.2.data.getD []).flatten) := by
  simpa [get_data] using get_data_loop_chain fetch chain url [] fuel hch hf

/-- C6 witness: three chained pages of ten items each yield the thirty
items 0–29 in order, and a chain whose middle page lacks `data` yields the
other two pages' twenty items without failing. -/
theorem get_data_chain_concat_witness :
    get_data pageFetch30 "https://api.snyk.io/p1" 4 =
      some ((chain30.map fun e => e.2.data.getD []).flatten) ∧
    get_data pageFetch30 "https://api.snyk.io/p1" 4 = some (List.range 30) ∧
    get_data pageFetchGap "https://api.snyk.io/q1" 4 =
      some ((chainGap.map fun e => e.2.data.getD []).flatten) ∧
    get_data pageFetchGap "https://api.snyk.io/q1" 4 = some (List.range 20) := by
  refine ⟨get_data_chain_concat pageFetch30 _ chain30 4 (by decide) (by decide),
    by decide,
    get_data_chain_concat pageFetchGap _ chainGap 4 (by decide) (by decide),
    by decide⟩

/-- C9: zero asset matches resolve to the absent outcome (Python `None`),
while exactly one matched asset with an empty
`relationships.organization.data` list resolves to the empty list — and the
two outcomes are distinct values. -/
theorem notFound_vs_empty_orgs (a : Asset) (fetch : String → Page Project)
    (fuel : Nat) (h : a.organization_data = []) :
    fetch_organizations [] fetch fuel = .notFound ∧
    fetch_organizations [a] fetch fuel = .found [] ∧
    ResolveResult.notFound ≠ ResolveResult.found [] := by
  refine ⟨rfl, ?_, by decide⟩
  simp [fetch_organizations, h]

/-- C9 witness: the two outcomes at a concrete asset with no candidate
organizations. -/
theorem notFound_vs_empty_orgs_witness :
    fetch_organizations [] emptyFetch 1 = .notFound ∧
    fetch_organizations [⟨[], "/rest/p"⟩] emptyFetch 1 = .found [] ∧
    ResolveResult.notFound ≠ ResolveResult.found [] := by
  exact notFound_vs_empty_orgs ⟨[], "/rest/p"⟩ emptyFetch 1 rfl

/-- C4: whenever the asset search returns more than one match, the
resolution raises the ambiguous-repository `ValueError`, and that error
propagates out of `main`'s branching identically for both values of the
fallback flag — no fallback handling applies. -/
theorem ambiguous_fails (assets : List Asset) (fetch : String → Page Project)
    (fuel : Nat) (allow_fallback : Bool) (h : 1 < assets.length) :
    fetch_organizations assets fetch fuel =
      .error (.ambiguousRepository assets.length) ∧
    main_after_search (fetch_organizations assets fetch fuel) allow_fallback =
      .failure (.ambiguousRepository assets.length) := by
  cases assets with
  | nil => simp at h
  | cons a t =>
    cases t with
    | nil => simp at h
    | cons b rest => exact ⟨rfl, rfl⟩

/-- C4 witness: two matches for the same repository fail with the ambiguous
error under both fallback settings. -/
theorem ambiguous_fails_witness :
    main_after_search (fetch_organizations [assetAB, assetAB] emptyFetch 1) true =
      .failure (.ambiguousRepository 2) ∧
    main_after_search (fetch_organizations [assetAB, assetAB] emptyFetch 1) false =
      .failure (.ambiguousRepository 2) := by
  refine ⟨?_, ?_⟩
  · simpa using (ambiguous_fails [assetAB, assetAB] emptyFetch 1 true (by simp)).2
  · simpa using (ambiguous_fails [assetAB, assetAB] emptyFetch 1 false (by simp)).2

/-- C1: for a search with exactly one matching asset whose candidate list
is non-empty, the resolver returns a sub-list of the candidate
organizations (built from `relationships.organization.data`, in order)
containing exactly those whose identifier owns at least one related project
with a test surface other than `"cli"`. -/
theorem fetch_organizations_scm_filter (a : Asset) (fetch : String → Page Project)
    (fuel : Nat) (projects : List Project)
    (horgs : a.organization_data ≠ [])
    (hproj : get_data fetch
      (add_url_params ("https://api.snyk.io" ++ a.projects_related_link)
        "limit" "100") fuel = some projects) :
    ∃ l, fetch_organizations [a] fetch fuel = .found l ∧
      l.Sublist (a.organization_data.map Organization.ofData) ∧
      ∀ o, o ∈ l ↔ (o ∈ a.organization_data.map Organization.ofData ∧
        ∃ p ∈ projects, p.test_surface ≠ "cli" ∧ p.organization_id = o.id) := by
  have hne : (a.organization_data.map Organization.ofData).isEmpty = false := by
    cases hd : a.organization_data with
    | nil => exact absurd hd horgs
    | cons x t => simp [hd]
  refine ⟨(a.organization_data.map Organization.ofData).filter
      (fun o => projects.any fun p =>
        p.test_surface != "cli" && p.organization_id == o.id),
    ?_, List.filter_sublist _, fun o => ?_⟩
  · simp [fetch_organizations, hne, hproj]
  · simp [List.mem_filter, List.any_eq_true, bne_iff_ne, beq_iff_eq]

/-- C1 witness: candidates {A, B} where only A owns a non-`"cli"` project —
the theorem instance, and the resulting list is exactly `[A]`. -/
theorem fetch_organizations_scm_filter_witness :
    (∃ l, fetch_organizations [assetAB] fetchAB 2 = .found l ∧
      l.Sublist (assetAB.organization_data.map Organization.ofData) ∧
      ∀ o, o ∈ l ↔ (o ∈ assetAB.organization_data.map Organization.ofData ∧
        ∃ p ∈ projectsAB, p.test_surface ≠ "cli" ∧ p.organization_id = o.id)) ∧
    fetch_organizations [assetAB] fetchAB 2 = .found [⟨"A", "Org A"⟩] := by
  refine ⟨fetch_organizations_scm_filter assetAB fetchAB 2 projectsAB
    (by decide) (by decide), by decide⟩

/-- C10: in the GET fetcher, a URL that already carries a query string makes
the request go out with no parameters at all — every caller-supplied
parameter is discarded — while on a query-less URL the `version` and
`limit` defaults are appended exactly when the caller did not supply them,
and a caller-supplied pair is passed through unchanged. -/
theorem get_discards_params_when_query {β : Type} (respond : Nat → HttpResponse β)
    (url : String) (params : Params) (mgr : SnykTokenManager)
    (maxAttempts fuel : Nat) :
    (pyInChar '?' url = true →
      (get respond url params mgr maxAttempts fuel).1 = none) ∧
    (pyInChar '?' url = false → List.lookup "version" params = none →
      List.lookup "limit" params = none →
      (get respond url params mgr maxAttempts fuel).1 =
        some (params ++ [("version", API_VERSION), ("limit", "100")])) ∧
    (pyInChar '?' url = false → (List.lookup "version" params).isSome = true →
      (List.lookup "limit" params).isSome = true →
      (get respond url params mgr maxAttempts fuel).1 = some params) := by
  refine ⟨fun h => ?_, fun h hv hl => ?_, fun h hv hl => ?_⟩
  · simp [get, get_params, h]
  · have h1 : dictSetDefault params "version" API_VERSION =
        params ++ [("version", API_VERSION)] := by
      simp [dictSetDefault, hv]
    have h2 : List.lookup "limit" (params ++ [("version", API_VERSION)]) = none := by
      rw [lookup_append_of_none hl]
      decide
    have h3 : dictSetDefault (params ++ [("version", API_VERSION)]) "limit" "100" =
        params ++ [("version", API_VERSION), ("limit", "100")] := by
      simp [dictSetDefault, h2]
    simp [get, get_params, h, h1, h3]
  · simp [get, get_params, h, dictSetDefault, hv, hl]

/-- C10 witness: with a `?` in the URL the caller's parameter is dropped
(`none` is sent); without one, the defaults are injected for an empty
caller dict, and a caller-supplied `version`/`limit` pair is preserved. -/
theorem get_discards_params_when_query_witness :
    (get (fun _ => (⟨200, 0⟩ : HttpResponse Nat)) "https://x/y?a=b" [("z", "w")]
      (SnykTokenManager.init ["t"]) 5 9).1 = none ∧
    (get (fun _ => (⟨200, 0⟩ : HttpResponse Nat)) "https://x/y" []
      (SnykTokenManager.init ["t"]) 5 9).1 =
      some ([] ++ [("version", API_VERSION), ("limit", "100")]) ∧
    (get (fun _ => (⟨200, 0⟩ : HttpResponse Nat)) "https://x/y"
      [("version", "v9"), ("limit", "5")] (SnykTokenManager.init ["t"]) 5 9).1 =
      some [("version", "v9"), ("limit", "5")] := by
  refine ⟨(get_discards_params_when_query _ _ _ _ _ _).1 (by decide),
    (get_discards_params_when_query _ _ _ _ _ _).2.1 (by decide) (by decide)
      (by decide),
    (get_discards_params_when_query _ _ _ _ _ _).2.2 (by decide) (by decide)
      (by decide)⟩

/-- Lemma: `next_token` on a non-empty pool gives the token at the cursor, cursor
bumped. -/
theorem next_token_nonempty (m : SnykTokenManager) (h : m.tokens.length ≠ 0) :
    m.next_token = some
      (m.tokens.get ⟨m.idx % m.tokens.length, Nat.mod_lt _ (Nat.pos_of_ne_zero h)⟩,
       { m with idx := m.idx + 1 }) := by
  simp [SnykTokenManager.next_token, h]

/-- Stepping the GET retry loop through `j` leading 429 responses to the
first non-429 one: `j + 1` requests are made, each rotating one token, and
that first non-429 response is returned. -/
theorem get_loop_first_ok {β : Type} (respond : Nat → HttpResponse β)
    (maxAttempts : Nat) :
    ∀ (j k att backoff fuel : Nat) (mgr : SnykTokenManager),
      mgr.tokens.length ≠ 0 →
      (∀ t, t < j → (respond (k + t)).status = 429) →
      (respond (k + j)).status ≠ 429 →
      att + j ≤ maxAttempts →
      j < fuel →
      get_loop respond k mgr maxAttempts att backoff fuel =
        .response (respond (k + j)) { mgr with idx := mgr.idx + (j + 1) } := by
  intro j
  induction j with
  | zero =>
    intro k att backoff fuel mgr hm h429 hok hatt hf
    obtain ⟨f, rfl⟩ : ∃ f, fuel = f + 1 := ⟨fuel - 1, by omega⟩
    simp only [Nat.add_zero] at hok
    simp [get_loop, next_token_nonempty mgr hm, hok]
  | succ j ih =>
    intro k att backoff fuel mgr hm h429 hok hatt hf
    obtain ⟨f, rfl⟩ : ∃ f, fuel = f + 1 := ⟨fuel - 1, by omega⟩
    have h0 : (respond k).status = 429 := by
      simpa using h429 0 (Nat.succ_pos j)
    have hne : att ≠ maxAttempts := by omega
    have step := ih (k + 1) (att + 1) (backoff * 2) f
      { mgr with idx := mgr.idx + 1 } (by simpa using hm)
      (fun t ht => by
        have := h429 (t + 1) (Nat.succ_lt_succ ht)
        rwa [show k + (t + 1) = k + 1 + t by omega] at this)
      (by rwa [show k + 1 + j = k + (j + 1) by omega])
      (by omega) (by omega)
    simp only [get_loop, next_token_nonempty mgr hm, h0, if_pos, if_neg hne, step]
    rw [show k + 1 + j = k + (j + 1) by omega,
      show mgr.idx + 1 + (j + 1) = mgr.idx + (j + 1 + 1) by omega]

/-- Stepping the GET retry loop through unbroken 429 responses until the
attempt counter reaches the ceiling: after `j + 1` requests (each rotating
one token) the rate-limit error is raised. -/
theorem get_loop_all_429 {β : Type} (respond : Nat → HttpResponse β)
    (maxAttempts : Nat) :
    ∀ (j k att backoff fuel : Nat) (mgr : SnykTokenManager),
      mgr.tokens.length ≠ 0 →
      (∀ t, t ≤ j → (respond (k + t)).status = 429) →
      att + j = maxAttempts →
      j < fuel →
      get_loop respond k mgr maxAttempts att backoff fuel =
        .rateLimitExceeded { mgr with idx := mgr.idx + (j + 1) } := by
  intro j
  induction j with
  | zero =>
    intro k att backoff fuel mgr hm h429 hatt hf
    obtain ⟨f, rfl⟩ : ∃ f, fuel = f + 1 := ⟨fuel - 1, by omega⟩
    have h0 : (respond k).status = 429 := by simpa using h429 0 (Nat.le_refl 0)
    simp [get_loop, next_token_nonempty mgr hm, h0, show att = maxAttempts by omega]
  | succ j ih =>
    intro k att backoff fuel mgr hm h429 hatt hf
    obtain ⟨f, rfl⟩ : ∃ f, fuel = f + 1 := ⟨fuel - 1, by omega⟩
    have h0 : (respond k).status = 429 := by simpa using h429 0 (Nat.zero_le _)
    have hne : att ≠ maxAttempts := by omega
    have step := ih (k + 1) (att + 1) (backoff * 2) f
      { mgr with idx := mgr.idx + 1 } (by simpa using hm)
      (fun t ht => by
        have := h429 (t + 1) (Nat.succ_le_succ ht)
        rwa [show k + (t + 1) = k + 1 + t by omega] at this)
      (by omega) (by omega)
    simp only [get_loop, next_token_nonempty mgr hm, h0, if_pos, if_neg hne, step]
    rw [show mgr.idx + 1 + (j + 1) = mgr.idx + (j + 1 + 1) by omega]

/-- C5: the generic GET fetcher with the default ceiling of 5 — against an
endpoint answering 429 exactly twice then non-429, exactly 3 requests go
out (3 token rotations) and the third response is returned; against an
endpoint always answering 429, it raises the rate-limit error after exactly
5 requests (5 token rotations). -/
theorem get_retry_spec {β : Type} (respond : Nat → HttpResponse β) (url : String)
    (params : Params) (mgr : SnykTokenManager) (fuel : Nat)
    (hm : mgr.tokens.length ≠ 0) (hfuel : 5 ≤ fuel) :
    ((respond 0).status = 429 → (respond 1).status = 429 →
      (respond 2).status ≠ 429 →
      (get respond url params mgr 5 fuel).2 =
        .response (respond 2) { mgr with idx := mgr.idx + 3 }) ∧
    ((∀ t, t ≤ 4 → (respond t).status = 429) →
      (get respond url params mgr 5 fuel).2 =
        .rateLimitExceeded { mgr with idx := mgr.idx + 5 }) := by
  constructor
  · intro h0 h1 h2
    have := get_loop_first_ok respond 5 2 0 1 2 fuel mgr hm
      (by
        intro t ht
        match t with
        | 0 => simpa using h0
        | 1 => simpa using h1
        | t + 2 => omega)
      (by simpa using h2) (by omega) (by omega)
    simpa [get] using this
  · intro hall
    have := get_loop_all_429 respond 5 4 0 1 2 fuel mgr hm
      (fun t ht => by simpa using hall t ht) (by omega) (by omega)
    simpa [get] using this

/-- C5 witness: the two mock endpoints of the spec, on a two-token pool —
three attempts then the 200 response, and five attempts then the
rate-limit error. -/
theorem get_retry_spec_witness :
    (get respond2then200 "https://x" [] (SnykTokenManager.init ["a", "b"]) 5 9).2 =
      .response (respond2then200 2)
        { SnykTokenManager.init ["a", "b"] with
            idx := (SnykTokenManager.init ["a", "b"]).idx + 3 } ∧
    (get respondAll429 "https://x" [] (SnykTokenManager.init ["a", "b"]) 5 9).2 =
      .rateLimitExceeded
        { SnykTokenManager.init ["a", "b"] with
            idx := (SnykTokenManager.init ["a", "b"]).idx + 5 } := by
  refine ⟨(get_retry_spec respond2then200 "https://x" []
      (SnykTokenManager.init ["a", "b"]) 9 (by decide) (by omega)).1
      (by decide) (by decide) (by decide),
    (get_retry_spec respondAll429 "https://x" []
      (SnykTokenManager.init ["a", "b"]) 9 (by decide) (by omega)).2
      (fun t ht => by simp [respondAll429])⟩

/-- C2 (evaluating the defect): with the default ceiling of 5, the very
first 429 makes `fetch_repo_data` leave its retry loop through the `break`
in the `else` branch, and `raise_for_status` then raises the HTTP error for
status 429 — no backoff wait, no re-issued request, no rate-limit
`ValueError`. -/
theorem fetch_repo_data_first_429_raises_http :
    fetch_repo_data (fun _ => ⟨429, ([] : List Asset)⟩)
      (SnykTokenManager.init ["t"]) 5 100 = .httpError 429 := by
  decide

end SnykFindOrg
